import Mathlib

/-!
Verification of the manga-translation web application (an Angular component
`AppComponent` plus a `GeminiService` translation client) against its design
specification.

Shallow embedding conventions:
* JavaScript strings are modelled as `List Char` (sequences of characters),
  because all the string operations the app performs (`toLowerCase`,
  `split`, `trim`, `endsWith`-style regex tests, concatenation) are
  character-sequence operations.
* The reactive signals of the component are collected into a `Session`
  record; each handler becomes a function from the old session to the new.
* External collaborators (JSZip, pdf.js, the Gemini API, the browser's
  object-URL registry) are modelled as explicit inputs: the parsed archive
  entry list, a `PdfDoc` with a per-page render outcome, a per-page oracle
  for the translation call, and an explicit list of live object URLs.
* Fallible operations return `Except`; a thrown/rejected JS error is
  `Except.error`.
-/

/-- Lexicographic comparison of character sequences by code point, the order
used by JavaScript's default `Array.prototype.sort` on (BMP) strings. -/
def lexLe : List Char → List Char → Bool
  | [], _ => true
  | _ :: _, [] => false
  | a :: as, b :: bs =>
    if a.toNat < b.toNat then true
    else if b.toNat < a.toNat then false
    else lexLe as bs

/-- The sorting relation on file names used by the archive reader. -/
def nameLe (a b : List Char) : Prop := lexLe a b = true

instance : DecidableRel nameLe := fun a b => by unfold nameLe; infer_instance

instance : IsTotal (List Char) nameLe where
  total a := by
    induction a with
    | nil => intro b; left; rfl
    | cons x xs ih =>
      intro b
      cases b with
      | nil => right; rfl
      | cons y ys =>
        simp only [nameLe, lexLe]
        rcases Nat.lt_trichotomy x.toNat y.toNat with h | h | h
        · left; simp [h]
        · have hn : ¬ x.toNat < y.toNat := by omega
          have hn2 : ¬ y.toNat < x.toNat := by omega
          rcases ih ys with h2 | h2
          · left; simp [hn, hn2]; exact h2
          · right; simp [hn, hn2]; exact h2
        · right; simp [h]

instance : IsTrans (List Char) nameLe where
  trans a := by
    induction a with
    | nil => intro b c _ _; rfl
    | cons x xs ih =>
      intro b c hab hbc
      cases b with
      | nil => exact absurd hab (by simp [nameLe, lexLe])
      | cons y ys =>
        cases c with
        | nil => exact absurd hbc (by simp [nameLe, lexLe])
        | cons z zs =>
          simp only [nameLe, lexLe] at hab hbc ⊢
          rcases Nat.lt_trichotomy x.toNat y.toNat with h1 | h1 | h1
          · rcases Nat.lt_trichotomy y.toNat z.toNat with h2 | h2 | h2
            · have h3 : x.toNat < z.toNat := Nat.lt_trans h1 h2
              simp [h3]
            · have h3 : x.toNat < z.toNat := by omega
              simp [h3]
            · have hn1 : ¬ y.toNat < z.toNat := by omega
              simp [hn1, h2] at hbc
          · have hn1 : ¬ x.toNat < y.toNat := by omega
            have hn2 : ¬ y.toNat < x.toNat := by omega
            simp only [hn1, if_false, hn2, if_neg, ite_false] at hab
            rcases Nat.lt_trichotomy y.toNat z.toNat with h2 | h2 | h2
            · have h3 : x.toNat < z.toNat := by omega
              simp [h3]
            · have hn3 : ¬ x.toNat < z.toNat := by omega
              have hn4 : ¬ z.toNat < x.toNat := by omega
              have hn5 : ¬ y.toNat < z.toNat := by omega
              have hn6 : ¬ z.toNat < y.toNat := by omega
              simp only [hn5, hn6, if_neg, ite_false] at hbc
              simp only [hn3, hn4, if_neg, ite_false]
              exact ih ys zs hab hbc
            · have hn5 : ¬ y.toNat < z.toNat := by omega
              simp [hn5, h2] at hbc
          · have hn : ¬ x.toNat < y.toNat := by omega
            simp [hn, h1] at hab

/-- One step of scanning for the last dot-separated segment: a dot restarts
the segment, any other character extends it. -/
def extStep (acc : List Char) (c : Char) : List Char :=
  if c = '.' then [] else acc ++ [c]

/-- The characters after the last `'.'` of `cs`, or all of `cs` when it
contains no dot.  This is exactly the value of the JavaScript idiom
`str.split('.').pop()` used by `handleFile` and `getImageMimeType`. -/
def lastSeg (cs : List Char) : List Char :=
  cs.foldl extStep []

/-- Does `cs` end with the character sequence `suffix`?  Used to model the
anchored regular-expression test in `handleCbz`. -/
def endsWithChars (cs suffix : List Char) : Bool :=
  cs.reverse.take suffix.length == suffix.reverse

/-- Does `pat` occur at the start of `cs`? (helper for `containsSub`). -/
def startsWithChars : List Char → List Char → Bool
  | _, [] => true
  | [], _ :: _ => false
  | h :: t, p :: ps => h == p && startsWithChars t ps

/-- Does `pat` occur anywhere inside `cs`?  Models JavaScript
`String.prototype.includes`. -/
def containsSub : List Char → List Char → Bool
  | [], pat => pat.isEmpty
  | c :: t, pat => startsWithChars (c :: t) pat || containsSub t pat

/-- Split a character sequence at newline characters; models
`str.split('\n')`. -/
def splitNl : List Char → List (List Char)
  | [] => [[]]
  | c :: cs =>
    if c = '\n' then [] :: splitNl cs
    else
      match splitNl cs with
      | s :: rest => (c :: s) :: rest
      | [] => [[c]]

/-- Remove leading and trailing whitespace; models `str.trim()`. -/
def trimChars (cs : List Char) : List Char :=
  ((cs.dropWhile Char.isWhitespace).reverse.dropWhile Char.isWhitespace).reverse

/-- `resultText.split('\n').filter(line => line.trim() !== '')` from
`translateAll`: the non-blank lines of the model response. -/
def splitLines (text : List Char) : List (List Char) :=
  (splitNl text).filter (fun l => !(trimChars l).isEmpty)

/-- The `AppStatus` union type of the component. -/
inductive AppStatus
  | idle
  | loadingFile
  | fileLoaded
  | translating
  | success
  | error
deriving DecidableEq

/-- The `TranslationMode` union type. -/
inductive TranslationMode
  | short
  | full
  | bold
  | inDepth
deriving DecidableEq

/-- The `Page` interface: one extracted page with its translation state.
The uploaded `File` object is represented by its name and MIME type, and
the object URL returned by `URL.createObjectURL` by `previewUrl`. -/
structure Page where
  pageNum : Nat
  name : List Char
  mimeType : List Char
  previewUrl : List Char
  isTranslating : Bool
  translation : Option (List (List Char))
  error : Option (List Char)
deriving DecidableEq

/-- The signal state of `AppComponent` (one ingestion+translation session).
The API key lives in `GeminiService` and is passed separately where read. -/
structure Session where
  status : AppStatus
  uploadedFile : Option (List Char)
  fileName : List Char
  pages : List Page
  totalPageCount : Nat
  translatedPageCount : Nat
  wikiUrl : List Char
  translationMode : TranslationMode
  isApiKeyModalVisible : Bool
  apiKeyInput : List Char
  errorMessage : List Char
deriving DecidableEq

/-- The initial values of the component's signals. -/
def initialSession : Session where
  status := .idle
  uploadedFile := none
  fileName := []
  pages := []
  totalPageCount := 0
  translatedPageCount := 0
  wikiUrl := []
  translationMode := .inDepth
  isApiKeyModalVisible := true
  apiKeyInput := []
  errorMessage := []

/-- `reset()`: restores every signal it touches to its initial value.  It
does not touch `isApiKeyModalVisible` or `apiKeyInput`, and it calls no
`URL.revokeObjectURL`. -/
def resetSession (s : Session) : Session :=
  { status := .idle
    uploadedFile := none
    fileName := []
    pages := []
    totalPageCount := 0
    translatedPageCount := 0
    wikiUrl := []
    translationMode := .inDepth
    errorMessage := []
    isApiKeyModalVisible := s.isApiKeyModalVisible
    apiKeyInput := s.apiKeyInput }

/-- A session together with the browser's registry of live object URLs
(entries created by `URL.createObjectURL` and not yet revoked). -/
structure ResourceState where
  session : Session
  liveUrls : List (List Char)
deriving DecidableEq

/-- The effect of `reset()` on session and resources: the source of
`reset()` sets ten signals and contains no `URL.revokeObjectURL` call, so
the live object-URL registry is unchanged. -/
def resetWithResources (st : ResourceState) : ResourceState :=
  { session := resetSession st.session, liveUrls := st.liveUrls }

/-- Message shown by `handleFile` for an unsupported extension. -/
def invalidFileTypeMessage : List Char :=
  "Invalid file type. Please upload a .cbz or .pdf file.".data

/-- Which handler `handleFile` dispatches to. -/
inductive FileRoute
  | cbz
  | pdf
  | invalid
deriving DecidableEq

/-- `file.name.toLowerCase().split('.').pop()` from `handleFile`. -/
def fileExtension (name : List Char) : List Char :=
  lastSeg (name.map Char.toLower)

/-- `handleFile(file)`: resets the prior session, enters `loading-file`,
records the file, and dispatches on the extension.  The returned
`FileRoute` says which handler (`handleCbz`, `handlePdf`, or neither) the
code proceeds with. -/
def handleFile (name : List Char) (s : Session) : Session × FileRoute :=
  let s0 := resetSession s
  let s1 := { s0 with status := .loadingFile, uploadedFile := some name, fileName := name }
  let ext := fileExtension name
  if ext = "cbz".data then (s1, .cbz)
  else if ext = "pdf".data then (s1, .pdf)
  else ({ s1 with status := .error, errorMessage := invalidFileTypeMessage }, .invalid)

/-- `handleFile` dispatch with the object-URL registry: the dispatch itself
creates no object URL and revokes none (the handlers create URLs later). -/
def handleFileWithResources (name : List Char) (st : ResourceState) : ResourceState × FileRoute :=
  let (s, route) := handleFile name st.session
  (⟨s, st.liveUrls⟩, route)

/-- One entry of the loaded zip archive (`zip.files`): its key (name) and
its `dir` flag. -/
structure ZipEntry where
  name : List Char
  dir : Bool
deriving DecidableEq

/-- The case-insensitive anchored test `/\.(jpe?g|png|gif|webp)$/i` applied
to an entry name. -/
def isImageName (name : List Char) : Bool :=
  let l := name.map Char.toLower
  endsWithChars l ".jpg".data || endsWithChars l ".jpeg".data ||
  endsWithChars l ".png".data || endsWithChars l ".gif".data ||
  endsWithChars l ".webp".data

/-- `Object.keys(zip.files).filter(name => !zip.files[name].dir && …)`:
the names of the non-directory image entries, in archive key order. -/
def imageNames (entries : List ZipEntry) : List (List Char) :=
  (entries.filter (fun e => !e.dir && isImageName e.name)).map (fun e => e.name)

/-- `getImageMimeType`: the fixed extension-to-MIME lookup table.  Note the
source splits the original name first and lowercases the popped segment. -/
def getImageMimeType (filename : List Char) : List Char :=
  let ext := (lastSeg filename).map Char.toLower
  if ext = "jpg".data then "image/jpeg".data
  else if ext = "jpeg".data then "image/jpeg".data
  else if ext = "png".data then "image/png".data
  else if ext = "gif".data then "image/gif".data
  else if ext = "webp".data then "image/webp".data
  else "application/octet-stream".data

/-- The page record pushed by `handleCbz` for the sorted name at 0-based
index `i`: page number `i+1`, a fresh object URL for the blob, and
`isTranslating: false` (translation and error fields absent). -/
def mkCbzPage (i : Nat) (name : List Char) : Page :=
  { pageNum := i + 1
    name := name
    mimeType := getImageMimeType name
    previewUrl := "blob:".data ++ name
    isTranslating := false
    translation := none
    error := none }

/-- The extraction phase of `handleCbz` on a successfully parsed archive:
filter to non-directory image entries, sort the names, throw when none
remain, otherwise number the pages 1..k in sorted order.  (`zip.file(name)`
cannot return null for a filtered non-directory key, so the loop keeps
every sorted name.) -/
def extractPages (entries : List ZipEntry) : Except (List Char) (List Page) :=
  let imageFiles := List.insertionSort nameLe (imageNames entries)
  if imageFiles.length = 0 then .error "No images found in the .cbz file.".data
  else .ok (imageFiles.enum.map (fun p => mkCbzPage p.1 p.2))

/-- The catch-all message of `handleCbz`, shown for any exception thrown
inside its `try` block. -/
def corruptCbzMessage : List Char :=
  "Failed to read the .cbz file. It might be corrupted.".data

/-- `handleCbz(file)` at the session level.  `load` is the outcome of
`JSZip.loadAsync` (`Except.error` = the zip cannot be parsed).  The throw
for an image-less archive happens inside the same `try`, so both failure
shapes land in the same `catch`, which sets the same status and message. -/
def handleCbzSession (load : Except (List Char) (List ZipEntry)) (s : Session) : Session :=
  match load with
  | .error _ => { s with status := .error, errorMessage := corruptCbzMessage }
  | .ok entries =>
    match extractPages entries with
    | .error _ => { s with status := .error, errorMessage := corruptCbzMessage }
    | .ok ps =>
      { s with totalPageCount := ps.length, pages := ps, status := .fileLoaded }

/-- Outcome of rendering one PDF page in `handlePdf`'s loop:
`ok` (context acquired, render resolved, PNG blob produced),
`ctxNull` (`canvas.getContext('2d')` returned null — page silently skipped),
`blobNull` (`canvas.toBlob` produced null — page silently skipped), or
`renderErr` (`getPage`/`render` rejected — the exception reaches the catch). -/
inductive RenderOutcome
  | ok
  | ctxNull
  | blobNull
  | renderErr
deriving DecidableEq

/-- A successfully opened PDF document: its declared page count and the
render outcome of each 1-based page index. -/
structure PdfDoc where
  numPages : Nat
  render : Nat → RenderOutcome

/-- One rendered page: `page_${i}.png`, PNG-encoded, rendered through
`page.getViewport({ scale: 1.5 })`. -/
structure RenderedPage where
  pageNum : Nat
  name : List Char
  mimeType : List Char
  scale : ℚ
deriving DecidableEq

/-- The page record `handlePdf` pushes for page index `i`. -/
def mkPdfPage (i : Nat) : RenderedPage :=
  { pageNum := i
    name := "page_".data ++ (toString i).data ++ ".png".data
    mimeType := "image/png".data
    scale := 1.5 }

/-- Message of `handlePdf`'s catch block. -/
def corruptPdfMessage : List Char :=
  "Failed to read the .pdf file. It might be corrupted or protected.".data

/-- Message shown when the pdf.js library is missing. -/
def pdfLibMessage : List Char :=
  "PDF library is not available. Please check your connection.".data

/-- The rendering loop of `handlePdf` over the given page indices:
an `ok` page is pushed, a `ctxNull`/`blobNull` page is skipped without any
error, and a `renderErr` aborts the whole loop with the catch message. -/
def rasterizeFrom (doc : PdfDoc) : List Nat → Except (List Char) (List RenderedPage)
  | [] => .ok []
  | i :: rest =>
    match doc.render i with
    | .renderErr => .error corruptPdfMessage
    | .ctxNull => rasterizeFrom doc rest
    | .blobNull => rasterizeFrom doc rest
    | .ok =>
      match rasterizeFrom doc rest with
      | .ok ps => .ok (mkPdfPage i :: ps)
      | .error e => .error e

/-- `handlePdf`'s loop `for (let i = 1; i <= pdf.numPages; i++)`. -/
def rasterizePdf (doc : PdfDoc) : Except (List Char) (List RenderedPage) :=
  rasterizeFrom doc (List.range' 1 doc.numPages)

/-- Convert a rendered PDF page to the `Page` record pushed by `handlePdf`. -/
def pdfToPage (r : RenderedPage) : Page :=
  { pageNum := r.pageNum
    name := r.name
    mimeType := r.mimeType
    previewUrl := "blob:".data ++ r.name
    isTranslating := false
    translation := none
    error := none }

/-- `handlePdf(file)` at the session level.  `libAvailable` models whether
the pdf.js global is defined; `load` is the outcome of `getDocument(...)`.
`totalPageCount` is set before the loop, so it survives a later render
failure; `pages` is committed only after the whole loop succeeds. -/
def handlePdfSession (libAvailable : Bool) (load : Except (List Char) PdfDoc)
    (s : Session) : Session :=
  if libAvailable = false then
    { s with status := .error, errorMessage := pdfLibMessage }
  else
    match load with
    | .error _ => { s with status := .error, errorMessage := corruptPdfMessage }
    | .ok doc =>
      let s1 := { s with totalPageCount := doc.numPages }
      match rasterizePdf doc with
      | .error _ => { s1 with status := .error, errorMessage := corruptPdfMessage }
      | .ok ps => { s1 with pages := ps.map pdfToPage, status := .fileLoaded }

/-- A JavaScript error value observed by `translateMangaPage`'s catch:
its `toString()` form and its `message` property. -/
structure SvcError where
  str : List Char
  message : List Char
deriving DecidableEq

/-- Outcome of `genAI.models.generateContent(...)` for one call: a resolved
response text, or a rejection with an error value. -/
inductive SvcOutcome
  | ok (text : List Char)
  | err (e : SvcError)
deriving DecidableEq

/-- The substring tested by `error.toString().includes('API key not valid')`. -/
def apiKeyNotValidPattern : List Char := "API key not valid".data

/-- The fixed string returned for an invalid-API-key service error. -/
def invalidKeyMessage : List Char :=
  "Translation failed: The provided API key is invalid. Please check your key and try again.".data

/-- The string returned for any other service error (with `${error.message}`
appended). -/
def genericFailureMessage (m : List Char) : List Char :=
  "Translation failed. Please check the console for details. Error: ".data ++ m

/-- The message of the error thrown when the `genAI` client is null. -/
def notInitializedMessage : List Char :=
  "Gemini AI client is not initialized. Check API Key.".data

/-- `GeminiService.translateMangaPage` for one call.  `genAIInitialized`
models `this.genAI !== null` (set at startup iff `process.env.API_KEY` was
present); `svc` is the outcome of the `generateContent` call.  The prompt
text and mode instruction do not affect the control flow modelled here.
A rejection of the call is caught and converted into a *returned string*;
only the null-client check throws. -/
def translateMangaPage (genAIInitialized : Bool) (svc : SvcOutcome) :
    Except (List Char) (List Char) :=
  if genAIInitialized = false then .error notInitializedMessage
  else
    match svc with
    | .ok text => .ok text
    | .err e =>
      .ok (if containsSub e.str apiKeyNotValidPattern then invalidKeyMessage
           else genericFailureMessage e.message)

/-- Guard message: empty page store. -/
def noPagesMessage : List Char := "No pages loaded to translate.".data

/-- Guard message: missing context URL. -/
def missingUrlMessage : List Char :=
  "Please provide a Wikipedia or Fandom URL for context.".data

/-- Guard message: missing API key. -/
def noKeyMessage : List Char := "API Key is not configured. Cannot translate.".data

/-- `e.message || 'An unknown error occurred'` from `translateAll`'s catch. -/
def errOrDefault (m : List Char) : List Char :=
  if m = [] then "An unknown error occurred".data else m

/-- `Failed on page ${page.pageNum}. See details above.` -/
def failedOnPageMessage (n : Nat) : List Char :=
  "Failed on page ".data ++ (toString n).data ++ ". See details above.".data

/-- The first `pages.update` of an iteration: mark the page as translating
and clear its error. -/
def markTranslating (n : Nat) (pages : List Page) : List Page :=
  pages.map (fun p =>
    if p.pageNum = n then { p with isTranslating := true, error := none } else p)

/-- The `pages.update` after a resolved call: store the non-blank response
lines and clear the in-flight flag. -/
def setTranslation (n : Nat) (text : List Char) (pages : List Page) : List Page :=
  pages.map (fun p =>
    if p.pageNum = n then
      { p with isTranslating := false, translation := some (splitLines text) }
    else p)

/-- The `pages.update` in the catch: record the error and clear the
in-flight flag. -/
def setPageError (n : Nat) (msg : List Char) (pages : List Page) : List Page :=
  pages.map (fun p =>
    if p.pageNum = n then { p with isTranslating := false, error := some msg } else p)

/-- Result of the sequential translation loop: the final page list, every
intermediate page-list state (before the loop, after each `pages.update`),
the page numbers sent to the translation client in order, the number of
resolved calls (the final `translatedPageCount`), and the last failure
message written to `errorMessage` (if any). -/
structure LoopResult where
  pages : List Page
  states : List (List Page)
  calls : List Nat
  succeeded : Nat
  lastError : Option (List Char)

/-- The `for (const page of pagesToTranslate)` loop of `translateAll`.
`cur` is the current value of the `pages` signal, the second argument the
remaining snapshot entries.  `oracle` gives the outcome of
`translateMangaPage(page.file, url, mode)` per page number (`Except.error`
= the awaited promise rejected, carrying `e.message`). -/
def translateLoop (oracle : Nat → Except (List Char) (List Char)) :
    List Page → List Page → LoopResult
  | cur, [] => ⟨cur, [cur], [], 0, none⟩
  | cur, p :: todo =>
    let m := markTranslating p.pageNum cur
    match oracle p.pageNum with
    | .ok text =>
      let res := translateLoop oracle (setTranslation p.pageNum text m) todo
      ⟨res.pages, cur :: m :: res.states, p.pageNum :: res.calls,
       res.succeeded + 1, res.lastError⟩
    | .error emsg =>
      let res := translateLoop oracle (setPageError p.pageNum (errOrDefault emsg) m) todo
      ⟨res.pages, cur :: m :: res.states, p.pageNum :: res.calls,
       res.succeeded, Option.or res.lastError (some (failedOnPageMessage p.pageNum))⟩

/-- `translateAll()`.  `apiKey` is the current value of
`geminiService.apiKeySignal()` (empty = falsy).  Returns the new session
and the list of page numbers for which the translation client was invoked.
After the guards the code sets `translating`, zeroes the counters, runs the
loop over the snapshot, and unconditionally ends in `success`. -/
def translateAll (apiKey : List Char) (oracle : Nat → Except (List Char) (List Char))
    (s : Session) : Session × List Nat :=
  if s.pages.length = 0 then
    ({ s with status := .error, errorMessage := noPagesMessage }, [])
  else if trimChars s.wikiUrl = [] then
    ({ s with status := .error, errorMessage := missingUrlMessage }, [])
  else if apiKey = [] then
    ({ s with
        status := .error
        errorMessage := noKeyMessage
        isApiKeyModalVisible := true }, [])
  else
    let res := translateLoop oracle s.pages s.pages
    ({ s with
        status := .success
        pages := res.pages
        translatedPageCount := res.succeeded
        errorMessage := res.lastError.getD [] }, res.calls)

/-- Is an `Except` a success?  (Used to state which calls of a run fail.) -/
def exceptIsOk : Except (List Char) (List Char) → Bool
  | .ok _ => true
  | .error _ => false

/-- The net effect of one loop iteration on a page whose number matches the
processed page: mark-then-store for a resolved call, mark-then-record-error
for a rejected one. -/
def finalUpd (oracle : Nat → Except (List Char) (List Char)) (n : Nat) (q : Page) : Page :=
  match oracle n with
  | .ok text =>
    { q with
        isTranslating := false
        error := none
        translation := some (splitLines text) }
  | .error emsg =>
    { q with isTranslating := false, error := some (errOrDefault emsg) }

/-! ## Helper lemmas -/

theorem foldl_extStep_no_dot (ys : List Char) :
    ∀ acc, '.' ∉ ys → ys.foldl extStep acc = acc ++ ys := by
  induction ys with
  | nil => intro acc _; simp
  | cons c cs ih =>
    intro acc h
    simp only [List.mem_cons, not_or] at h
    obtain ⟨h1, h2⟩ := h
    have hc : ¬ (c = '.') := fun e => h1 e.symm
    simp only [List.foldl_cons, extStep, if_neg hc]
    rw [ih _ h2]
    simp

theorem lastSeg_append_dot (xs ys : List Char) (h : '.' ∉ ys) :
    lastSeg (xs ++ '.' :: ys) = ys := by
  unfold lastSeg
  rw [List.foldl_append]
  simp only [List.foldl_cons]
  have he : extStep (List.foldl extStep [] xs) '.' = [] := by simp [extStep]
  rw [he, foldl_extStep_no_dot ys [] h]
  simp

theorem lastSeg_no_dot (ys : List Char) (h : '.' ∉ ys) : lastSeg ys = ys := by
  unfold lastSeg
  rw [foldl_extStep_no_dot ys [] h]
  simp

theorem generic_ne_invalid (m : List Char) :
    genericFailureMessage m ≠ invalidKeyMessage := by
  intro h
  have h18 := congrArg (fun l => l[18]?) h
  simp only [genericFailureMessage] at h18
  have hlt : (18 : Nat) <
      ("Translation failed. Please check the console for details. Error: ".data).length := by
    decide
  rw [List.getElem?_append_left hlt] at h18
  exact absurd h18 (by decide)

/-! ## C8: reset -/

/-- C8: resetting a session, from any state, empties the Page Store, clears
the inputs (context URL back to empty, mode back to the in-depth default),
and sets the status to idle. -/
theorem resetSession_clears (s : Session) :
    (resetSession s).pages = [] ∧
    (resetSession s).status = AppStatus.idle ∧
    (resetSession s).wikiUrl = [] ∧
    (resetSession s).translationMode = TranslationMode.inDepth ∧
    (resetSession s).uploadedFile = none ∧
    (resetSession s).fileName = [] ∧
    (resetSession s).totalPageCount = 0 ∧
    (resetSession s).translatedPageCount = 0 ∧
    (resetSession s).errorMessage = [] := by
  exact ⟨rfl, rfl, rfl, rfl, rfl, rfl, rfl, rfl, rfl⟩

/-! ## C9: preview-handle release -/

/-- C9 counterexample: a session holding one page whose preview handle
`blob:001.png` is live is reset; the Page Store empties but the object URL
is still live afterwards, because `reset()` contains no revocation call. -/
theorem reset_leaves_preview_handle_live :
    (resetWithResources
        ⟨{ initialSession with
            pages := [mkCbzPage 0 "001.png".data]
            status := .fileLoaded },
          [(mkCbzPage 0 "001.png".data).previewUrl]⟩).session.pages = [] ∧
    (mkCbzPage 0 "001.png".data).previewUrl ∈
      (resetWithResources
        ⟨{ initialSession with
            pages := [mkCbzPage 0 "001.png".data]
            status := .fileLoaded },
          [(mkCbzPage 0 "001.png".data).previewUrl]⟩).liveUrls := by
  exact ⟨rfl, by decide⟩

/-- C9 amended: resetting (or starting to handle a newly selected file,
whose first step is the same reset) discards all Page records, but releases
no preview handle: the set of live object URLs is exactly unchanged, so
every handle of the prior session remains live until document unload. -/
theorem reset_releases_no_handles (st : ResourceState) (name : List Char) :
    (resetWithResources st).liveUrls = st.liveUrls ∧
    (resetWithResources st).session.pages = [] ∧
    (handleFileWithResources name st).1.liveUrls = st.liveUrls ∧
    (handleFileWithResources name st).1.session.pages = [] := by
  refine ⟨rfl, rfl, rfl, ?_⟩
  simp only [handleFileWithResources, handleFile]
  split
  · rfl
  · split <;> rfl

/-! ## C10: file-type dispatch -/

/-- C10 counterexample: the file name `cbz` contains no dot at all — so it
does not end in `.cbz` in any letter case — yet `handleFile` routes it to
archive extraction instead of producing the unsupported-file-type error
(`split('.').pop()` of a dotless name is the whole name). -/
theorem handleFile_dotless_cbz_routed :
    ('.' ∉ ("cbz".data : List Char)) ∧
    (handleFile "cbz".data initialSession).2 = FileRoute.cbz ∧
    (handleFile "cbz".data initialSession).1.status = AppStatus.loadingFile := by
  refine ⟨by decide, by decide, by decide⟩

/-- C10 amended: dispatch keys on the lowercased final dot-segment of the
name — the whole lowercased name when it has no dot.  A name ending in
`.cbz`/`.pdf` in any case is routed to the matching handler, a dotless name
spelling `cbz`/`pdf` in any case is routed the same way, and any name whose
final segment is neither yields the unsupported-file-type error; in every
outcome the prior session has been reset, so the Page Store is empty. -/
theorem handleFile_dispatch (name : List Char) (s : Session) :
    (∀ pre suf, name = pre ++ suf → suf.map Char.toLower = ".cbz".data →
      (handleFile name s).2 = FileRoute.cbz) ∧
    (∀ pre suf, name = pre ++ suf → suf.map Char.toLower = ".pdf".data →
      (handleFile name s).2 = FileRoute.pdf) ∧
    ('.' ∉ name → name.map Char.toLower = "cbz".data →
      (handleFile name s).2 = FileRoute.cbz) ∧
    ('.' ∉ name → name.map Char.toLower = "pdf".data →
      (handleFile name s).2 = FileRoute.pdf) ∧
    (fileExtension name ≠ "cbz".data → fileExtension name ≠ "pdf".data →
      (handleFile name s).1.status = AppStatus.error ∧
      (handleFile name s).1.errorMessage = invalidFileTypeMessage ∧
      (handleFile name s).2 = FileRoute.invalid) ∧
    (handleFile name s).1.pages = [] := by
  have hext : ∀ pre suf (tgt : List Char), '.' ∉ tgt → name = pre ++ suf →
      suf.map Char.toLower = '.' :: tgt → fileExtension name = tgt := by
    intro pre suf tgt htgt hname hsuf
    subst hname
    unfold fileExtension
    rw [List.map_append, hsuf, lastSeg_append_dot _ _ htgt]
  have hcbz : ∀ pre suf, name = pre ++ suf → suf.map Char.toLower = ".cbz".data →
      fileExtension name = "cbz".data := by
    intro pre suf h1 h2
    exact hext pre suf "cbz".data (by decide) h1 h2
  have hpdf : ∀ pre suf, name = pre ++ suf → suf.map Char.toLower = ".pdf".data →
      fileExtension name = "pdf".data := by
    intro pre suf h1 h2
    exact hext pre suf "pdf".data (by decide) h1 h2
  have hnodotExt : ∀ tgt : List Char, '.' ∉ tgt → name.map Char.toLower = tgt →
      fileExtension name = tgt := by
    intro tgt htgt hmap
    unfold fileExtension
    rw [hmap]
    exact lastSeg_no_dot tgt htgt
  refine ⟨?_, ?_, ?_, ?_, ?_, ?_⟩
  · intro pre suf h1 h2
    simp [handleFile, hcbz pre suf h1 h2]
  · intro pre suf h1 h2
    simp [handleFile, hpdf pre suf h1 h2]
  · intro _ hmap
    simp [handleFile, hnodotExt "cbz".data (by decide) hmap]
  · intro _ hmap
    have h := hnodotExt "pdf".data (by decide) hmap
    simp [handleFile, h]
  · intro h1 h2
    simp [handleFile, h1, h2]
  · simp only [handleFile]
    split
    · rfl
    · split <;> rfl

/-! ## C2: translation client failure handling -/

/-- C2 counterexample: the client does throw past its boundary — when the
`genAI` client object is null (no `API_KEY` in the environment at startup)
the call throws instead of returning a typed failure; and a backing-service
error is reported as an ordinary *success* value carrying a message string,
not as a typed failure distinguishable from a line sequence. -/
theorem translateMangaPage_throws_uninitialized :
    translateMangaPage false (.ok "hello".data) = .error notInitializedMessage ∧
    translateMangaPage true (.err ⟨"boom".data, "boom".data⟩) =
      .ok (genericFailureMessage "boom".data) := by
  exact ⟨rfl, rfl⟩

/-- C2 amended: when the `genAI` client object is initialized the call never
throws: a resolved service call is returned as-is; a rejected call whose
error description contains `API key not valid` yields the fixed invalid-key
message, any other rejection yields a generic message carrying the
underlying `error.message` — but both are returned in-band as ordinary
result strings (`.ok`), and the two message shapes are distinct from each
other.  Only an uninitialized client makes the call throw. -/
theorem translateMangaPage_initialized (svc : SvcOutcome) :
    (∃ out, translateMangaPage true svc = .ok out) ∧
    (∀ t, svc = .ok t → translateMangaPage true svc = .ok t) ∧
    (∀ e, svc = .err e → containsSub e.str apiKeyNotValidPattern = true →
      translateMangaPage true svc = .ok invalidKeyMessage) ∧
    (∀ e, svc = .err e → containsSub e.str apiKeyNotValidPattern = false →
      translateMangaPage true svc = .ok (genericFailureMessage e.message)) ∧
    (∀ m, genericFailureMessage m ≠ invalidKeyMessage) := by
  refine ⟨?_, ?_, ?_, ?_, generic_ne_invalid⟩
  · cases svc with
    | ok t => exact ⟨t, rfl⟩
    | err e =>
      by_cases h : containsSub e.str apiKeyNotValidPattern = true
      · exact ⟨invalidKeyMessage, by simp [translateMangaPage, h]⟩
      · exact ⟨genericFailureMessage e.message, by
          simp [translateMangaPage, Bool.not_eq_true _ ▸ h]⟩
  · intro t h
    subst h
    rfl
  · intro e h hpat
    subst h
    simp [translateMangaPage, hpat]
  · intro e h hpat
    subst h
    simp [translateMangaPage, hpat]

/-- C2 witness: a concrete invalid-key rejection is converted to the fixed
invalid-key result string. -/
theorem translateMangaPage_initialized_witness :
    translateMangaPage true
        (.err ⟨"Error: API key not valid. Check it.".data, "bad".data⟩) =
      .ok invalidKeyMessage :=
  (translateMangaPage_initialized _).2.2.1 _ rfl (by decide)

/-! ## C5: empty archive handling -/

/-- C5 counterexample: an archive that parses but contains zero image
entries produces *exactly the same* session failure as an archive that
cannot be parsed at all — both land in the same catch and set the same
corrupt-archive message — so the empty-archive failure is not
distinguishable from the corrupt-archive failure in the resulting state. -/
theorem emptyArchive_indistinguishable_from_corrupt :
    handleCbzSession (.ok [⟨"readme.txt".data, false⟩]) initialSession =
      handleCbzSession (.error "zip parse failure".data) initialSession ∧
    (handleCbzSession (.ok [⟨"readme.txt".data, false⟩]) initialSession).errorMessage =
      corruptCbzMessage := by
  exact ⟨rfl, rfl⟩

/-- C5 amended: an archive with zero matching images makes the extraction
step throw a distinct internal no-images error, but the handler catches it
and reports the same error status and corrupt-archive message as a parse
failure; extraction never produces an empty success, the session never
reaches file-loaded with an empty Page Store, and no failure path commits
any partial Page Store (pages are unchanged on every failure). -/
theorem handleCbz_empty_archive (entries : List ZipEntry) (s : Session)
    (h : imageNames entries = []) :
    extractPages entries = .error "No images found in the .cbz file.".data ∧
    handleCbzSession (.ok entries) s =
      { s with status := .error, errorMessage := corruptCbzMessage } ∧
    (handleCbzSession (.ok entries) s).pages = s.pages ∧
    (∀ load, (handleCbzSession load s).status = AppStatus.fileLoaded →
      (handleCbzSession load s).pages ≠ []) ∧
    (∀ load, (handleCbzSession load s).status ≠ AppStatus.fileLoaded →
      (handleCbzSession load s).pages = s.pages) := by
  have hext : extractPages entries = .error "No images found in the .cbz file.".data := by
    unfold extractPages
    rw [h]
    rfl
  refine ⟨hext, ?_, ?_, ?_, ?_⟩
  · simp [handleCbzSession, hext]
  · simp [handleCbzSession, hext]
  · intro load
    cases load with
    | error e => intro hst; exact absurd hst (by simp [handleCbzSession])
    | ok entries' =>
      intro hst
      simp only [handleCbzSession] at hst ⊢
      cases hE : extractPages entries' with
      | error e => rw [hE] at hst; simp at hst
      | ok ps =>
        show ps ≠ []
        unfold extractPages at hE
        by_cases hz : (List.insertionSort nameLe (imageNames entries')).length = 0
        · rw [if_pos hz] at hE; exact absurd hE (by simp)
        · rw [if_neg hz] at hE
          have hps : ps = (List.insertionSort nameLe (imageNames entries')).enum.map
              (fun p => mkCbzPage p.1 p.2) := by
            injection hE with h2
            exact h2.symm
          intro hnil
          rw [hps] at hnil
          have := congrArg List.length hnil
          simp at this
          exact hz (by simp [this])
  · intro load
    cases load with
    | error e => intro _; rfl
    | ok entries' =>
      intro hst
      simp only [handleCbzSession] at hst ⊢
      cases hE : extractPages entries' with
      | error e => rfl
      | ok ps => rw [hE] at hst; exact absurd rfl hst

/-- C5 witness: the amended behavior at a concrete one-entry imageless
archive. -/
theorem handleCbz_empty_archive_witness :
    extractPages [⟨"readme.txt".data, false⟩] =
      .error "No images found in the .cbz file.".data ∧
    handleCbzSession (.ok [⟨"readme.txt".data, false⟩]) initialSession =
      { initialSession with status := .error, errorMessage := corruptCbzMessage } :=
  ⟨(handleCbz_empty_archive [⟨"readme.txt".data, false⟩] initialSession (by decide)).1,
   (handleCbz_empty_archive [⟨"readme.txt".data, false⟩] initialSession (by decide)).2.1⟩

/-! ## C6: PDF rasterization -/

/-- C6 counterexample: a document that opens successfully and declares one
page, but whose 2d canvas context is unavailable for that page, is silently
skipped — the run returns zero images (not one) and still reaches
file-loaded with an empty Page Store, instead of failing or returning N
images. -/
theorem rasterizePdf_drops_page :
    (⟨1, fun _ => .ctxNull⟩ : PdfDoc).numPages = 1 ∧
    rasterizePdf ⟨1, fun _ => .ctxNull⟩ = .ok [] ∧
    (handlePdfSession true (.ok ⟨1, fun _ => .ctxNull⟩) initialSession).status =
      AppStatus.fileLoaded ∧
    (handlePdfSession true (.ok ⟨1, fun _ => .ctxNull⟩) initialSession).pages = [] := by
  exact ⟨rfl, rfl, rfl, rfl⟩

/-- C6 amended: for a document that opens with N declared pages *and whose
every page renders successfully* (2d context acquired, render resolved,
PNG blob produced), the rasterization loop returns exactly N images, one
per page, in page order 1..N with no reordering, each carrying the fixed
1.5 zoom factor and the PNG format. -/
theorem rasterizePdf_all_rendered (doc : PdfDoc)
    (h : ∀ i ∈ List.range' 1 doc.numPages, doc.render i = RenderOutcome.ok) :
    rasterizePdf doc = .ok ((List.range' 1 doc.numPages).map mkPdfPage) ∧
    ∃ ps, rasterizePdf doc = .ok ps ∧
      ps.length = doc.numPages ∧
      ps.map (fun r => r.pageNum) = List.range' 1 doc.numPages ∧
      (∀ r ∈ ps, r.scale = 1.5 ∧ r.mimeType = "image/png".data) := by
  have main : ∀ l : List Nat, (∀ i ∈ l, doc.render i = RenderOutcome.ok) →
      rasterizeFrom doc l = .ok (l.map mkPdfPage) := by
    intro l
    induction l with
    | nil => intro _; rfl
    | cons i rest ih =>
      intro hl
      have hi : doc.render i = RenderOutcome.ok := hl i (List.mem_cons_self i rest)
      have hrest := ih (fun j hj => hl j (List.mem_cons_of_mem i hj))
      simp [rasterizeFrom, hi, hrest]
  have h1 : rasterizePdf doc = .ok ((List.range' 1 doc.numPages).map mkPdfPage) :=
    main _ h
  refine ⟨h1, (List.range' 1 doc.numPages).map mkPdfPage, h1, ?_, ?_, ?_⟩
  · simp
  · rw [List.map_map]
    have : (fun r => RenderedPage.pageNum r) ∘ mkPdfPage = id := by
      funext i
      rfl
    rw [this, List.map_id]
  · intro r hr
    rcases List.mem_map.mp hr with ⟨i, _, hi⟩
    subst hi
    exact ⟨rfl, rfl⟩

/-- C6 witness: a concrete 2-page document whose pages all render gives
exactly the two pages in order. -/
theorem rasterizePdf_all_rendered_witness :
    rasterizePdf ⟨2, fun _ => .ok⟩ =
      .ok ((List.range' 1 2).map mkPdfPage) :=
  (rasterizePdf_all_rendered ⟨2, fun _ => .ok⟩ (by decide)).1

/-! ## C3: archive extraction ordering -/

/-- C3: for an archive with k non-directory raster-image entries, extraction
succeeds with exactly k pages, numbered 1..k, whose file names are the
image names in ascending lexicographic order (a permutation of the filtered
names, sorted by the code-point order used by the JS sort). -/
theorem extractPages_ordering (entries : List ZipEntry)
    (h : imageNames entries ≠ []) :
    ∃ ps, extractPages entries = .ok ps ∧
      ps.length = (imageNames entries).length ∧
      ps.map (fun p => p.pageNum) = List.range' 1 (imageNames entries).length ∧
      List.Sorted nameLe (ps.map (fun p => p.name)) ∧
      (ps.map (fun p => p.name)).Perm (imageNames entries) := by
  have hperm : (List.insertionSort nameLe (imageNames entries)).Perm (imageNames entries) :=
    List.perm_insertionSort nameLe (imageNames entries)
  have hlen : (List.insertionSort nameLe (imageNames entries)).length =
      (imageNames entries).length := hperm.length_eq
  have hnz : ¬ (List.insertionSort nameLe (imageNames entries)).length = 0 := by
    rw [hlen]
    simpa [List.length_eq_zero] using h
  refine ⟨(List.insertionSort nameLe (imageNames entries)).enum.map
      (fun p => mkCbzPage p.1 p.2), ?_, ?_, ?_, ?_, ?_⟩
  · unfold extractPages
    rw [if_neg hnz]
  · simp [hlen]
  · rw [List.map_map]
    have hfun : (fun p : Page => p.pageNum) ∘ (fun p : Nat × List Char => mkCbzPage p.1 p.2) =
        (fun p : Nat × List Char => p.1 + 1) := by
      funext p
      rfl
    rw [hfun]
    have h2 : (fun p : Nat × List Char => p.1 + 1) =
        (fun n : Nat => n + 1) ∘ Prod.fst := by
      funext p
      rfl
    rw [h2, ← List.map_map, List.enum_map_fst, hlen, List.range'_eq_map_range]
    apply List.map_congr_left
    intro a _
    omega
  · rw [List.map_map]
    have hfun : (fun p : Page => p.name) ∘ (fun p : Nat × List Char => mkCbzPage p.1 p.2) =
        (fun p : Nat × List Char => p.2) := by
      funext p
      rfl
    rw [hfun]
    have := List.enum_map_snd (List.insertionSort nameLe (imageNames entries))
    rw [show (fun p : Nat × List Char => p.2) = Prod.snd by funext p; rfl, this]
    exact List.sorted_insertionSort nameLe (imageNames entries)
  · rw [List.map_map]
    have hfun : (fun p : Page => p.name) ∘ (fun p : Nat × List Char => mkCbzPage p.1 p.2) =
        (fun p : Nat × List Char => p.2) := by
      funext p
      rfl
    rw [hfun]
    have := List.enum_map_snd (List.insertionSort nameLe (imageNames entries))
    rw [show (fun p : Nat × List Char => p.2) = Prod.snd by funext p; rfl, this]
    exact hperm

/-- C3 witness: the spec's example — an archive holding 002.png, 001.png,
010.jpg extracts as 001.png, 002.png, 010.jpg with page numbers 1, 2, 3
(lexicographic, not numeric, order). -/
theorem extractPages_ordering_witness :
    (∃ ps, extractPages [⟨"002.png".data, false⟩, ⟨"001.png".data, false⟩,
          ⟨"010.jpg".data, false⟩] = .ok ps ∧
      ps.length = (imageNames [⟨"002.png".data, false⟩, ⟨"001.png".data, false⟩,
          ⟨"010.jpg".data, false⟩]).length ∧
      ps.map (fun p => p.pageNum) = List.range' 1 (imageNames [⟨"002.png".data, false⟩,
          ⟨"001.png".data, false⟩, ⟨"010.jpg".data, false⟩]).length ∧
      List.Sorted nameLe (ps.map (fun p => p.name)) ∧
      (ps.map (fun p => p.name)).Perm (imageNames [⟨"002.png".data, false⟩,
          ⟨"001.png".data, false⟩, ⟨"010.jpg".data, false⟩])) ∧
    extractPages [⟨"002.png".data, false⟩, ⟨"001.png".data, false⟩,
        ⟨"010.jpg".data, false⟩] =
      .ok [mkCbzPage 0 "001.png".data, mkCbzPage 1 "002.png".data,
           mkCbzPage 2 "010.jpg".data] :=
  ⟨extractPages_ordering [⟨"002.png".data, false⟩, ⟨"001.png".data, false⟩,
      ⟨"010.jpg".data, false⟩] (by decide), by rfl⟩

/-! ## Loop lemmas for translateAll -/

theorem finalUpd_pageNum (oracle : Nat → Except (List Char) (List Char)) (n : Nat)
    (q : Page) : (finalUpd oracle n q).pageNum = q.pageNum := by
  cases h : oracle n <;> simp [finalUpd, h]

theorem setTranslation_mark (oracle : Nat → Except (List Char) (List Char)) (n : Nat)
    (text : List Char) (cur : List Page) (h : oracle n = .ok text) :
    setTranslation n text (markTranslating n cur) =
      cur.map (fun q => if q.pageNum = n then finalUpd oracle n q else q) := by
  unfold setTranslation markTranslating
  rw [List.map_map]
  apply List.map_congr_left
  intro q _
  simp only [Function.comp]
  by_cases hq : q.pageNum = n
  · simp [hq, finalUpd, h]
  · simp [hq]

theorem setPageError_mark (oracle : Nat → Except (List Char) (List Char)) (n : Nat)
    (emsg : List Char) (cur : List Page) (h : oracle n = .error emsg) :
    setPageError n (errOrDefault emsg) (markTranslating n cur) =
      cur.map (fun q => if q.pageNum = n then finalUpd oracle n q else q) := by
  unfold setPageError markTranslating
  rw [List.map_map]
  apply List.map_congr_left
  intro q _
  simp only [Function.comp]
  by_cases hq : q.pageNum = n
  · simp [hq, finalUpd, h]
  · simp [hq]

theorem translateLoop_pages_cons (oracle : Nat → Except (List Char) (List Char))
    (p : Page) (todo cur : List Page) :
    (translateLoop oracle cur (p :: todo)).pages =
      (translateLoop oracle
        (cur.map (fun q => if q.pageNum = p.pageNum then finalUpd oracle p.pageNum q else q))
        todo).pages := by
  cases h : oracle p.pageNum with
  | ok text =>
    simp only [translateLoop, h]
    rw [setTranslation_mark oracle p.pageNum text cur h]
  | error e =>
    simp only [translateLoop, h]
    rw [setPageError_mark oracle p.pageNum e cur h]

theorem translateLoop_states_cons (oracle : Nat → Except (List Char) (List Char))
    (p : Page) (todo cur : List Page) :
    (translateLoop oracle cur (p :: todo)).states =
      cur :: markTranslating p.pageNum cur ::
        (translateLoop oracle
          (cur.map (fun q => if q.pageNum = p.pageNum then finalUpd oracle p.pageNum q else q))
          todo).states := by
  cases h : oracle p.pageNum with
  | ok text =>
    simp only [translateLoop, h]
    rw [setTranslation_mark oracle p.pageNum text cur h]
  | error e =>
    simp only [translateLoop, h]
    rw [setPageError_mark oracle p.pageNum e cur h]

theorem translateLoop_pages_eq (oracle : Nat → Except (List Char) (List Char)) :
    ∀ (todo : List Page), (todo.map (fun p => p.pageNum)).Nodup → ∀ cur,
    (translateLoop oracle cur todo).pages =
      cur.map (fun q =>
        if q.pageNum ∈ todo.map (fun p => p.pageNum) then finalUpd oracle q.pageNum q
        else q) := by
  intro todo
  induction todo with
  | nil =>
    intro _ cur
    simp [translateLoop]
  | cons p todo ih =>
    intro hnd cur
    simp only [List.map_cons, List.nodup_cons] at hnd
    obtain ⟨hp, hnd'⟩ := hnd
    rw [translateLoop_pages_cons, ih hnd', List.map_map]
    apply List.map_congr_left
    intro q _
    simp only [Function.comp]
    by_cases hq : q.pageNum = p.pageNum
    · rw [if_pos hq]
      rw [if_neg (by rw [finalUpd_pageNum, hq]; exact hp)]
      rw [if_pos (by rw [List.map_cons, List.mem_cons]; exact Or.inl hq)]
      rw [hq]
    · rw [if_neg hq]
      by_cases hmem : q.pageNum ∈ todo.map (fun p => p.pageNum)
      · rw [if_pos hmem, if_pos (by rw [List.map_cons, List.mem_cons]; exact Or.inr hmem)]
      · have hnc : q.pageNum ∉ (p :: todo).map (fun r => r.pageNum) := by
          rw [List.map_cons, List.mem_cons]
          rintro (hc | hc)
          · exact hq hc
          · exact hmem hc
        rw [if_neg hmem, if_neg hnc]

/-! ## C4: translation start guards -/

/-- C4: translateAll is guarded — an empty Page Store, a blank (post-trim)
context URL, or a missing API key each abort before any client call with an
error status and that guard's specific message, leaving the Page Store
untouched and the call list empty (the guards are checked in that order). -/
theorem translateAll_guards (apiKey : List Char)
    (oracle : Nat → Except (List Char) (List Char)) (s : Session) :
    (s.pages = [] →
      translateAll apiKey oracle s =
        ({ s with status := .error, errorMessage := noPagesMessage }, [])) ∧
    (s.pages ≠ [] → trimChars s.wikiUrl = [] →
      translateAll apiKey oracle s =
        ({ s with status := .error, errorMessage := missingUrlMessage }, [])) ∧
    (s.pages ≠ [] → trimChars s.wikiUrl ≠ [] → apiKey = [] →
      translateAll apiKey oracle s =
        ({ s with
            status := .error
            errorMessage := noKeyMessage
            isApiKeyModalVisible := true }, [])) := by
  refine ⟨?_, ?_, ?_⟩
  · intro h
    have hl : s.pages.length = 0 := by simp [h]
    simp [translateAll, hl]
  · intro h hurl
    have hl : ¬ s.pages.length = 0 := by simpa [List.length_eq_zero] using h
    simp [translateAll, hl, hurl]
  · intro h hurl hkey
    have hl : ¬ s.pages.length = 0 := by simpa [List.length_eq_zero] using h
    simp [translateAll, hl, hurl, hkey]

/-- C4 witness: with one loaded page and a blank context URL, the run stops
with the missing-URL error and the client is never invoked. -/
theorem translateAll_guards_witness :
    translateAll "key".data (fun _ => .ok "t".data)
        { initialSession with pages := [mkCbzPage 0 "001.png".data] } =
      ({ { initialSession with pages := [mkCbzPage 0 "001.png".data] } with
          status := .error, errorMessage := missingUrlMessage }, []) :=
  (translateAll_guards "key".data (fun _ => .ok "t".data)
      { initialSession with pages := [mkCbzPage 0 "001.png".data] }).2.1
    (by decide) (by decide)

/-! ## C1: one failing page does not abort the run -/

/-- C1: for a fresh run over pages numbered 1..n with non-empty URL and
configured key, where exactly the call for page i rejects and every other
call resolves, the run completes with status success, page i ends with its
error set and no translation lines, and every other page ends with
translation lines set and no error. -/
theorem translateAll_single_failure (apiKey : List Char)
    (oracle : Nat → Except (List Char) (List Char)) (s : Session) (n i : Nat)
    (hmap : s.pages.map (fun p => p.pageNum) = List.range' 1 n)
    (hfresh : ∀ p ∈ s.pages, p.translation = none ∧ p.error = none)
    (hurl : trimChars s.wikiUrl ≠ [])
    (hkey : apiKey ≠ [])
    (hi : i ∈ List.range' 1 n)
    (hfail : exceptIsOk (oracle i) = false)
    (hok : ∀ j ∈ List.range' 1 n, j ≠ i → exceptIsOk (oracle j) = true) :
    (translateAll apiKey oracle s).1.status = AppStatus.success ∧
    (∀ p ∈ (translateAll apiKey oracle s).1.pages,
      p.pageNum = i → p.error.isSome ∧ p.translation = none) ∧
    (∀ p ∈ (translateAll apiKey oracle s).1.pages,
      p.pageNum ≠ i → p.translation.isSome ∧ p.error = none) := by
  have hlen : s.pages.length = n := by
    have := congrArg List.length hmap
    simpa using this
  have hne : ¬ s.pages.length = 0 := by
    rw [hlen]
    intro hz
    rw [hz] at hi
    simp at hi
  have hnd : (s.pages.map (fun p => p.pageNum)).Nodup := by
    rw [hmap]
    exact List.nodup_range' _ _
  have hres : translateAll apiKey oracle s =
      ({ s with
          status := .success
          pages := (translateLoop oracle s.pages s.pages).pages
          translatedPageCount := (translateLoop oracle s.pages s.pages).succeeded
          errorMessage := (translateLoop oracle s.pages s.pages).lastError.getD [] },
        (translateLoop oracle s.pages s.pages).calls) := by
    simp [translateAll, hne, hurl, hkey]
  have hpages : (translateAll apiKey oracle s).1.pages =
      s.pages.map (fun q =>
        if q.pageNum ∈ s.pages.map (fun p => p.pageNum) then finalUpd oracle q.pageNum q
        else q) := by
    rw [hres]
    exact translateLoop_pages_eq oracle s.pages hnd s.pages
  refine ⟨by rw [hres], ?_, ?_⟩
  · intro p hp hpi
    rw [hpages] at hp
    rcases List.mem_map.mp hp with ⟨q, hq, hqe⟩
    have hqmem : q.pageNum ∈ s.pages.map (fun p => p.pageNum) :=
      List.mem_map_of_mem _ hq
    rw [if_pos hqmem] at hqe
    have hqi : q.pageNum = i := by
      rw [← hpi, ← hqe, finalUpd_pageNum]
    cases ho : oracle i with
    | ok t => rw [ho] at hfail; exact absurd hfail (by simp [exceptIsOk])
    | error e =>
      have : p = { q with isTranslating := false, error := some (errOrDefault e) } := by
        rw [← hqe]
        simp [finalUpd, hqi, ho]
      rw [this]
      exact ⟨rfl, (hfresh q hq).1⟩
  · intro p hp hpi
    rw [hpages] at hp
    rcases List.mem_map.mp hp with ⟨q, hq, hqe⟩
    have hqmem : q.pageNum ∈ s.pages.map (fun p => p.pageNum) :=
      List.mem_map_of_mem _ hq
    rw [if_pos hqmem] at hqe
    have hqi : q.pageNum ≠ i := by
      rw [← hqe] at hpi
      rw [finalUpd_pageNum] at hpi
      exact hpi
    have hqrange : q.pageNum ∈ List.range' 1 n := by
      rw [← hmap]
      exact hqmem
    have := hok q.pageNum hqrange hqi
    cases ho : oracle q.pageNum with
    | error e => rw [ho] at this; exact absurd this (by simp [exceptIsOk])
    | ok t =>
      have : p = { q with
          isTranslating := false
          error := none
          translation := some (splitLines t) } := by
        rw [← hqe]
        simp [finalUpd, ho]
      rw [this]
      exact ⟨rfl, rfl⟩

/-- C1 witness: three fresh pages, the call for page 2 rejects, the others
resolve; the run ends in success with page 2 carrying the error. -/
theorem translateAll_single_failure_witness :
    (translateAll "key".data
        (fun j => if j = 2 then .error "boom".data else .ok "line".data)
        { initialSession with
            pages := [mkCbzPage 0 "001.png".data, mkCbzPage 1 "002.png".data,
                      mkCbzPage 2 "010.jpg".data]
            wikiUrl := "https://w.example".data }).1.status = AppStatus.success ∧
    (∀ p ∈ (translateAll "key".data
        (fun j => if j = 2 then .error "boom".data else .ok "line".data)
        { initialSession with
            pages := [mkCbzPage 0 "001.png".data, mkCbzPage 1 "002.png".data,
                      mkCbzPage 2 "010.jpg".data]
            wikiUrl := "https://w.example".data }).1.pages,
      p.pageNum = 2 → p.error.isSome ∧ p.translation = none) ∧
    (∀ p ∈ (translateAll "key".data
        (fun j => if j = 2 then .error "boom".data else .ok "line".data)
        { initialSession with
            pages := [mkCbzPage 0 "001.png".data, mkCbzPage 1 "002.png".data,
                      mkCbzPage 2 "010.jpg".data]
            wikiUrl := "https://w.example".data }).1.pages,
      p.pageNum ≠ 2 → p.translation.isSome ∧ p.error = none) :=
  translateAll_single_failure "key".data
    (fun j => if j = 2 then .error "boom".data else .ok "line".data)
    { initialSession with
        pages := [mkCbzPage 0 "001.png".data, mkCbzPage 1 "002.png".data,
                  mkCbzPage 2 "010.jpg".data]
        wikiUrl := "https://w.example".data }
    3 2 (by decide) (by decide) (by decide) (by decide) (by decide) (by decide)
    (by decide)

/-! ## C7: in-flight and state invariants during a run -/

theorem pageState_cases (p : Page) (h : ¬(p.translation.isSome ∧ p.error.isSome)) :
    (p.translation.isSome ∧ p.error = none) ∨
    (p.error.isSome ∧ p.translation = none) ∨
    (p.translation = none ∧ p.error = none) := by
  cases ht : p.translation <;> cases he : p.error <;> simp_all

theorem translateLoop_states_good (oracle : Nat → Except (List Char) (List Char)) :
    ∀ (todo : List Page), (todo.map (fun p => p.pageNum)).Nodup →
    ∀ (cur : List Page),
      (cur.map (fun p => p.pageNum)).Nodup →
      (∀ p ∈ cur, p.isTranslating = false) →
      (∀ p ∈ cur, ¬(p.translation.isSome ∧ p.error.isSome)) →
      (∀ p ∈ cur, p.pageNum ∈ todo.map (fun r => r.pageNum) →
        p.translation = none ∧ p.error = none) →
      ∀ st ∈ (translateLoop oracle cur todo).states,
        st.Pairwise (fun a b => a.isTranslating = false ∨ b.isTranslating = false) ∧
        ∀ p ∈ st, ¬(p.translation.isSome ∧ p.error.isSome) := by
  intro todo
  induction todo with
  | nil =>
    intro _ cur _ hflag hmutex _ st hst
    have hcur : st = cur := by simpa [translateLoop] using hst
    subst hcur
    refine ⟨List.pairwise_of_forall_mem_list (fun a ha _ _ => Or.inl (hflag a ha)), hmutex⟩
  | cons p todo ih =>
    intro hnd cur hcurnd hflag hmutex hfreshTodo st hst
    simp only [List.map_cons, List.nodup_cons] at hnd
    obtain ⟨hp, hnd'⟩ := hnd
    rw [translateLoop_states_cons] at hst
    rcases List.mem_cons.mp hst with hcur | hst2
    · subst hcur
      refine ⟨List.pairwise_of_forall_mem_list (fun a ha _ _ => Or.inl (hflag a ha)), hmutex⟩
    rcases List.mem_cons.mp hst2 with hm | hrest
    · subst hm
      constructor
      · unfold markTranslating
        apply List.pairwise_map.mpr
        have hNe : cur.Pairwise (fun a b => a.pageNum ≠ b.pageNum) :=
          List.pairwise_map.mp hcurnd
        have hFl : cur.Pairwise
            (fun a b => a.isTranslating = false ∧ b.isTranslating = false) :=
          List.pairwise_of_forall_mem_list (fun a ha b hb => ⟨hflag a ha, hflag b hb⟩)
        refine (hNe.and hFl).imp ?_
        intro a b hab
        obtain ⟨hne, hfa, hfb⟩ := hab
        by_cases ha : a.pageNum = p.pageNum
        · have hb : ¬ b.pageNum = p.pageNum := fun hb => hne (ha.trans hb.symm)
          right
          simp [hb, hfb]
        · left
          simp [ha, hfa]
      · intro q hq
        unfold markTranslating at hq
        rcases List.mem_map.mp hq with ⟨r, hr, hre⟩
        by_cases hrp : r.pageNum = p.pageNum
        · rw [if_pos hrp] at hre
          rw [← hre]
          simp
        · rw [if_neg hrp] at hre
          rw [← hre]
          exact hmutex r hr
    · refine ih hnd' _ ?_ ?_ ?_ ?_ st hrest
      · rw [List.map_map]
        have : ((fun p : Page => p.pageNum) ∘
            (fun q => if q.pageNum = p.pageNum then finalUpd oracle p.pageNum q else q)) =
            (fun p : Page => p.pageNum) := by
          funext q
          simp only [Function.comp]
          by_cases hq : q.pageNum = p.pageNum
          · rw [if_pos hq, finalUpd_pageNum]
          · rw [if_neg hq]
        rw [this]
        exact hcurnd
      · intro q hq
        rcases List.mem_map.mp hq with ⟨r, hr, hre⟩
        by_cases hrp : r.pageNum = p.pageNum
        · rw [if_pos hrp] at hre
          rw [← hre]
          cases ho : oracle p.pageNum <;> simp [finalUpd, ho]
        · rw [if_neg hrp] at hre
          rw [← hre]
          exact hflag r hr
      · intro q hq
        rcases List.mem_map.mp hq with ⟨r, hr, hre⟩
        by_cases hrp : r.pageNum = p.pageNum
        · rw [if_pos hrp] at hre
          have hfr := hfreshTodo r hr (by
            rw [List.map_cons, List.mem_cons]
            exact Or.inl hrp)
          cases ho : oracle p.pageNum with
          | ok t =>
            rw [← hre]
            simp [finalUpd, ho]
          | error e =>
            rw [← hre]
            simp [finalUpd, ho, hfr.1]
        · rw [if_neg hrp] at hre
          rw [← hre]
          exact hmutex r hr
      · intro q hq hqmem
        rcases List.mem_map.mp hq with ⟨r, hr, hre⟩
        by_cases hrp : r.pageNum = p.pageNum
        · rw [if_pos hrp] at hre
          have : q.pageNum = p.pageNum := by
            rw [← hre, finalUpd_pageNum]
            exact hrp
          rw [this] at hqmem
          exact absurd hqmem hp
        · rw [if_neg hrp] at hre
          rw [← hre] at hqmem ⊢
          refine hfreshTodo r hr ?_
          rw [List.map_cons, List.mem_cons]
          exact Or.inr hqmem

/-- C7: over a fresh snapshot with distinct page numbers, at every
intermediate point of the sequential translation loop no two distinct page
entries are in-flight (`isTranslating`) simultaneously, and every page is
in exactly one of the three states — translation present (error absent),
error present (translation absent), or neither (not yet attempted). -/
theorem translateLoop_run_invariants (oracle : Nat → Except (List Char) (List Char))
    (pages : List Page)
    (hnd : (pages.map (fun p => p.pageNum)).Nodup)
    (hfresh : ∀ p ∈ pages,
      p.isTranslating = false ∧ p.translation = none ∧ p.error = none) :
    ∀ st ∈ (translateLoop oracle pages pages).states,
      st.Pairwise (fun a b => a.isTranslating = false ∨ b.isTranslating = false) ∧
      ∀ p ∈ st, (p.translation.isSome ∧ p.error = none) ∨
        (p.error.isSome ∧ p.translation = none) ∨
        (p.translation = none ∧ p.error = none) := by
  intro st hst
  have h := translateLoop_states_good oracle pages hnd pages hnd
    (fun p hp => (hfresh p hp).1)
    (fun p hp => by simp [(hfresh p hp).2.1])
    (fun p hp _ => ⟨(hfresh p hp).2.1, (hfresh p hp).2.2⟩)
    st hst
  exact ⟨h.1, fun p hp => pageState_cases p (h.2 p hp)⟩

/-- C7 witness: in a concrete two-page run with one failing call, the state
reached just after page 1 is marked in-flight still has no two entries
translating at once, and the not-yet-attempted page 2 is in the
neither-translation-nor-error state. -/
theorem translateLoop_run_invariants_witness :
    (markTranslating 1 [mkCbzPage 0 "001.png".data,
        mkCbzPage 1 "002.png".data]).Pairwise
      (fun a b => a.isTranslating = false ∨ b.isTranslating = false) ∧
    (((mkCbzPage 1 "002.png".data).translation.isSome ∧
        (mkCbzPage 1 "002.png".data).error = none) ∨
      ((mkCbzPage 1 "002.png".data).error.isSome ∧
        (mkCbzPage 1 "002.png".data).translation = none) ∨
      ((mkCbzPage 1 "002.png".data).translation = none ∧
        (mkCbzPage 1 "002.png".data).error = none)) := by
  have h := translateLoop_run_invariants
    (fun j => if j = 1 then .ok "line".data else .error "x".data)
    [mkCbzPage 0 "001.png".data, mkCbzPage 1 "002.png".data]
    (by decide) (by decide)
    (markTranslating 1 [mkCbzPage 0 "001.png".data, mkCbzPage 1 "002.png".data])
    (by decide)
  exact ⟨h.1, h.2 (mkCbzPage 1 "002.png".data) (by decide)⟩

/-- C10 witness: a concrete mixed-case `.CBZ` name is routed to archive
extraction, and a concrete unsupported name errors with an empty store. -/
theorem handleFile_dispatch_witness :
    (handleFile "Comic.CBZ".data initialSession).2 = FileRoute.cbz ∧
    ((handleFile "notes.txt".data initialSession).1.status = AppStatus.error ∧
      (handleFile "notes.txt".data initialSession).1.errorMessage =
        invalidFileTypeMessage ∧
      (handleFile "notes.txt".data initialSession).2 = FileRoute.invalid) ∧
    (handleFile "notes.txt".data initialSession).1.pages = [] :=
  ⟨(handleFile_dispatch "Comic.CBZ".data initialSession).1 "Comic".data ".CBZ".data
      (by decide) (by decide),
   (handleFile_dispatch "notes.txt".data initialSession).2.2.2.2.1
      (by decide) (by decide),
   (handleFile_dispatch "notes.txt".data initialSession).2.2.2.2.2⟩
